import Mathlib

/-!
Shallow embedding of the space-invader game core (`src/main.cpp`) and proofs
about its per-frame simulation: entity update, spawn scheduling, collision
resolution and the PLAYING/GAME_OVER state machine.

Floats of the source are modelled as rationals; raylib's `GetRandomValue`
is modelled as a draw from an explicit stream of raw natural numbers, taken
uniformly modulo the size of the requested inclusive range.
-/

attribute [local semireducible] Rat.add Rat.sub Rat.mul Rat.inv

namespace SpaceInvader

/-- The random source: an infinite stream of raw draws, consumed left to right.
Models raylib's internal generator state. -/
def Rng : Type := Nat → Nat

/-- The next raw draw of the stream. -/
def Rng.head (g : Rng) : Nat := g 0

/-- The stream after consuming one draw. -/
def Rng.tail (g : Rng) : Rng := fun n => g (n + 1)

/-- Model of raylib `GetRandomValue(lo, hi)`: a uniform integer in the
inclusive range `[lo, hi]`, obtained from the next raw draw modulo the range
size, together with the advanced generator. -/
def getRandomValue (lo hi : Int) (g : Rng) : Int × Rng :=
  (lo + ((g.head % (hi - lo + 1).toNat : Nat) : Int), g.tail)

/-- A 2D float vector (`Vector2`). -/
structure Vec2 where
  x : ℚ
  y : ℚ
deriving DecidableEq, Repr

/-- Axis-aligned rectangle (`Rectangle`). -/
structure Rect where
  x : ℚ
  y : ℚ
  w : ℚ
  h : ℚ
deriving DecidableEq, Repr

/-- Screen width set by `InitWindow(800, 600, ...)`. -/
def screenWidth : ℚ := 800

/-- Screen height set by `InitWindow(800, 600, ...)`. -/
def screenHeight : ℚ := 600

/-- raylib `CheckCollisionRecs`: overlap of two axis-aligned rectangles. -/
def checkCollisionRecs (a b : Rect) : Bool :=
  decide (a.x < b.x + b.w) && decide (a.x + a.w > b.x) &&
  decide (a.y < b.y + b.h) && decide (a.y + a.h > b.y)

/-- raylib `CheckCollisionCircleRec`: circle against axis-aligned rectangle,
by distance from the circle center to the rectangle. -/
def checkCollisionCircleRec (c : Vec2) (radius : ℚ) (r : Rect) : Bool :=
  let dx := |c.x - (r.x + r.w / 2)|
  let dy := |c.y - (r.y + r.h / 2)|
  if dx > r.w / 2 + radius then false
  else if dy > r.h / 2 + radius then false
  else if dx ≤ r.w / 2 then true
  else if dy ≤ r.h / 2 then true
  else decide ((dx - r.w / 2) * (dx - r.w / 2) + (dy - r.h / 2) * (dy - r.h / 2)
                ≤ radius * radius)

inductive EnemyType where
  | SIMPLE
  | MID
  | HARD
  | BOSS
deriving DecidableEq, Repr

inductive UpgradeType where
  | HEALTH
  | FIRE_RATE
  | ATTACK_RANGE
deriving DecidableEq, Repr

inductive GameState where
  | PLAYING
  | GAME_OVER
deriving DecidableEq, Repr

/-- Embeds `Bullet`: straight-line projectile. Speed sign encodes direction
(player bullets −500 travel up, enemy bullets +300 travel down). -/
structure Bullet where
  pos : Vec2
  speed : ℚ
  isPlayerBullet : Bool
  damage : Int
deriving DecidableEq, Repr

/-- Embeds `Bullet` constructor: player bullets get speed −500, enemy bullets +300;
damage defaults to 1 at call sites that pass no third argument. -/
def Bullet.make (pos : Vec2) (isPlayer : Bool) (dmg : Int) : Bullet :=
  { pos := pos, speed := if isPlayer then -500 else 300,
    isPlayerBullet := isPlayer, damage := dmg }

/-- Embeds `Bullet::Update`: move vertically by `speed * dt`. -/
def Bullet.update (b : Bullet) (dt : ℚ) : Bullet :=
  { b with pos := { b.pos with y := b.pos.y + b.speed * dt } }

/-- Embeds `Bullet::IsOutOfScreen`. -/
def Bullet.isOutOfScreen (b : Bullet) : Bool :=
  decide (b.pos.y < 0) || decide (b.pos.y > screenHeight)

/-- Keys read during a frame. -/
structure FrameInput where
  left : Bool
  right : Bool
  enterPressed : Bool
deriving DecidableEq, Repr

/-- Embeds `Player`: position, health, stats and fire cooldown. -/
structure Player where
  pos : Vec2
  width : ℚ
  height : ℚ
  speed : ℚ
  health : Int
  maxHealth : Int
  fireCooldown : ℚ
  fireRate : ℚ
  attackRange : ℚ
deriving DecidableEq, Repr

/-- The `Player` constructor. -/
def Player.init : Player :=
  { pos := ⟨400, 550⟩, width := 50, height := 20, speed := 300,
    health := 3, maxHealth := 3,
    fireCooldown := 0, fireRate := 1/2, attackRange := 50 }

/-- Embeds `GameObject::GetHitbox` for the player. -/
def Player.hitbox (p : Player) : Rect :=
  ⟨p.pos.x, p.pos.y, p.width, p.height⟩

/-- Embeds `Player::Reset`: restore position, fire cooldown, and health to the
current `maxHealth`; `maxHealth`, `fireRate`, `attackRange` are untouched. -/
def Player.reset (p : Player) : Player :=
  { p with pos := ⟨400, 550⟩, health := p.maxHealth, fireCooldown := 0 }

/-- Embeds `Player::IncreaseMaxHealth`: both `maxHealth` and `health` grow by 1. -/
def Player.increaseMaxHealth (p : Player) : Player :=
  { p with maxHealth := p.maxHealth + 1, health := p.health + 1 }

/-- Embeds `Player::UpgradeFireRate`: decrease by 0.1, clamped at the 0.1 floor. -/
def Player.upgradeFireRate (p : Player) : Player :=
  { p with fireRate := if p.fireRate - 1/10 < 1/10 then 1/10 else p.fireRate - 1/10 }

/-- Embeds `Player::UpgradeAttackRange`. -/
def Player.upgradeAttackRange (p : Player) : Player :=
  { p with attackRange := p.attackRange + 10 }

/-- Embeds `GameObject::TakeDamage` applied to the player. -/
def Player.takeDamage (p : Player) (amount : Int) : Player :=
  { p with health := p.health - amount }

/-- Embeds `Player::Update`: horizontal movement clamped to the screen, cooldown
countdown, and the fire step appending one player bullet when it expires. -/
def Player.update (p : Player) (dt : ℚ) (inp : FrameInput) (bullets : List Bullet) :
    Player × List Bullet :=
  let x0 := if inp.left then p.pos.x - p.speed * dt else p.pos.x
  let x1 := if inp.right then x0 + p.speed * dt else x0
  let x2 := if x1 < 0 then 0 else x1
  let x3 := if x2 > screenWidth - p.width then screenWidth - p.width else x2
  let cd := p.fireCooldown - dt
  if cd ≤ 0 then
    ({ p with pos := ⟨x3, p.pos.y⟩, fireCooldown := p.fireRate },
     bullets ++ [Bullet.make ⟨x3 + p.width / 2, p.pos.y⟩ true 1])
  else
    ({ p with pos := ⟨x3, p.pos.y⟩, fireCooldown := cd }, bullets)

/-- Embeds `Enemy`: per-type stats fixed at construction, plus the shoot timer. -/
structure Enemy where
  pos : Vec2
  width : ℚ
  height : ℚ
  speed : ℚ
  health : Int
  shootTimer : ℚ
  shootInterval : ℚ
  type : EnemyType
  scoreValue : Int
deriving DecidableEq, Repr

/-- The `Enemy` constructor: size 120×120 for BOSS (else 40×40) and
health/speed/score by type (1/50/10, 1/70/25, 2/90/50, 7/40/500). -/
def Enemy.make (pos : Vec2) (t : EnemyType) : Enemy :=
  let stats : Int × ℚ × Int :=
    match t with
    | .SIMPLE => (1, 50, 10)
    | .MID => (1, 70, 25)
    | .HARD => (2, 90, 50)
    | .BOSS => (7, 40, 500)
  { pos := pos,
    width := if t = .BOSS then 120 else 40,
    height := if t = .BOSS then 120 else 40,
    speed := stats.2.1,
    health := stats.1,
    shootTimer := 0,
    shootInterval := 2,
    type := t,
    scoreValue := stats.2.2 }

/-- Embeds `GameObject::GetHitbox` for an enemy. -/
def Enemy.hitbox (e : Enemy) : Rect :=
  ⟨e.pos.x, e.pos.y, e.width, e.height⟩

/-- The function-level `static` state of `Enemy::Update`'s boss branch:
the wander-direction timer and direction shared by all boss instances. -/
structure BossShared where
  directionChangeTimer : ℚ
  direction : Vec2
deriving DecidableEq, Repr

/-- Initial values of the boss-branch statics. -/
def BossShared.init : BossShared := ⟨0, ⟨0, 1⟩⟩

/-- Embeds `Enemy::Update` for one enemy: boss wander + 3-bullet spread on a 0.5s
timer, or straight-down motion + one bullet every `shootInterval`. Returns the
updated enemy, bullets, boss statics, and generator. -/
def Enemy.updateOne (e : Enemy) (dt : ℚ) (bullets : List Bullet)
    (sh : BossShared) (g : Rng) : Enemy × List Bullet × BossShared × Rng :=
  if e.type = .BOSS then
    let t := sh.directionChangeTimer + dt
    let (sh1, g1) :=
      if t ≥ 3/2 then
        let (rx, ga) := getRandomValue (-10) 10 g
        let (ry, gb) := getRandomValue 5 10 ga
        (BossShared.mk 0 ⟨(rx : ℚ) / 10, (ry : ℚ) / 10⟩, gb)
      else (BossShared.mk t sh.direction, g)
    let x0 := e.pos.x + sh1.direction.x * e.speed * dt
    let y0 := e.pos.y + sh1.direction.y * e.speed * dt
    let x1 := if x0 < 0 then 0 else x0
    let x2 := if x1 > screenWidth - e.width then screenWidth - e.width else x1
    let st := e.shootTimer + dt
    if st ≥ 1/2 then
      let (j1, g2) := getRandomValue (-20) 20 g1
      let (j2, g3) := getRandomValue (-20) 20 g2
      let (j3, g4) := getRandomValue (-20) 20 g3
      ({ e with pos := ⟨x2, y0⟩, shootTimer := 0 },
       bullets ++ [Bullet.make ⟨x2 + e.width / 2 + (j1 : ℚ), y0 + e.height⟩ false 2,
                   Bullet.make ⟨x2 + e.width / 2 + (j2 : ℚ), y0 + e.height⟩ false 2,
                   Bullet.make ⟨x2 + e.width / 2 + (j3 : ℚ), y0 + e.height⟩ false 2],
       sh1, g4)
    else
      ({ e with pos := ⟨x2, y0⟩, shootTimer := st }, bullets, sh1, g1)
  else
    let y0 := e.pos.y + e.speed * dt
    let st := e.shootTimer + dt
    if st ≥ e.shootInterval then
      ({ e with pos := ⟨e.pos.x, y0⟩, shootTimer := 0 },
       bullets ++ [Bullet.make ⟨e.pos.x + e.width / 2, y0 + e.height⟩ false 1],
       sh, g)
    else
      ({ e with pos := ⟨e.pos.x, y0⟩, shootTimer := st }, bullets, sh, g)

/-- Embeds `Upgrade`: falling pickup with a 5-second lifetime. -/
structure Upgrade where
  type : UpgradeType
  pos : Vec2
  fallSpeed : ℚ
  timer : ℚ
  active : Bool
deriving DecidableEq, Repr

/-- Embeds `Upgrade::Update`: fall and count the lifetime down while active. -/
def Upgrade.update (u : Upgrade) (dt : ℚ) : Upgrade :=
  if u.active then
    { u with pos := { u.pos with y := u.pos.y + u.fallSpeed * dt },
             timer := u.timer - dt }
  else u

/-- Embeds `Upgrade::IsActive`. -/
def Upgrade.isActive (u : Upgrade) : Bool :=
  u.active && decide (u.timer > 0)

/-- Embeds `Upgrade::GetHitbox`: a 30×30 square at the upgrade's position. -/
def Upgrade.hitbox (u : Upgrade) : Rect :=
  ⟨u.pos.x, u.pos.y, 30, 30⟩

/-- A timed HUD text entry (`std::pair<std::string, float>`). -/
structure Note where
  text : String
  time : ℚ
deriving DecidableEq, Repr

/-- The `Game` state: the player, all collections, score, spawn timers, the
difficulty/boss progression flags, the state-machine state, and the boss
branch's static wander state (process-lived, so carried here). -/
structure Game where
  player : Player
  enemies : List Enemy
  bullets : List Bullet
  upgrades : List Upgrade
  score : Int
  enemySpawnTimer : ℚ
  bossSpawnTimer : ℚ
  bossesDefeated : Int
  bossActive : Bool
  notes : List Note
  state : GameState
  bossShared : BossShared
deriving DecidableEq, Repr

/-- The freshly constructed `Game` before the first frame. -/
def initialGame : Game :=
  { player := Player.init, enemies := [], bullets := [], upgrades := [],
    score := 0, enemySpawnTimer := 0, bossSpawnTimer := 0,
    bossesDefeated := 0, bossActive := false, notes := [],
    state := .PLAYING, bossShared := BossShared.init }

/-- The non-boss enemy type spawned at the current difficulty tier:
SIMPLE at 0 bosses defeated, MID at 1, HARD otherwise. -/
def tierType (bossesDefeated : Int) : EnemyType :=
  if bossesDefeated = 0 then .SIMPLE
  else if bossesDefeated = 1 then .MID
  else .HARD

/-- The spawn loop of `Game::SpawnEnemies`: `n` enemies of the tier type, each
at a random x in `[0, screenWidth − 40]` and y = −40, appended in order. -/
def spawnEnemyLoop (bossesDefeated : Int) : Nat → List Enemy → Rng → List Enemy × Rng
  | 0, es, g => (es, g)
  | n + 1, es, g =>
    let (x, g1) := getRandomValue 0 760 g
    spawnEnemyLoop bossesDefeated n
      (es ++ [Enemy.make ⟨(x : ℚ), -40⟩ (tierType bossesDefeated)]) g1

/-- Embeds `Game::SpawnEnemies`: accumulate the spawn timer; at ≥ 2s reset it and
spawn a uniformly random count in `[1, 4]` of tier-type enemies. -/
def spawnEnemies (w : Game) (dt : ℚ) (g : Rng) : Game × Rng :=
  let t := w.enemySpawnTimer + dt
  if t ≥ 2 then
    let (count, g1) := getRandomValue 1 4 g
    let (es, g2) := spawnEnemyLoop w.bossesDefeated count.toNat w.enemies g1
    ({ w with enemySpawnTimer := 0, enemies := es }, g2)
  else
    ({ w with enemySpawnTimer := t }, g)

/-- Embeds `Game::SpawnBoss`: while a boss is active nothing happens (the timer does
not even accumulate); otherwise accumulate and, at ≥ 60s, reset the timer,
set `bossActive`, spawn one BOSS at (screenWidth/2 − 60, −120) and post the
"BOSS INCOMING!" message for 2s. -/
def spawnBoss (w : Game) (dt : ℚ) (g : Rng) : Game × Rng :=
  if w.bossActive then (w, g)
  else
    let t := w.bossSpawnTimer + dt
    if t ≥ 60 then
      ({ w with bossSpawnTimer := 0, bossActive := true,
                enemies := w.enemies ++ [Enemy.make ⟨screenWidth / 2 - 60, -120⟩ .BOSS],
                notes := w.notes ++ [⟨"BOSS INCOMING!", 2⟩] }, g)
    else
      ({ w with bossSpawnTimer := t }, g)

/-- Embeds `Game::UpdateBullets`: move every bullet, then erase off-screen ones. -/
def updateBullets (w : Game) (dt : ℚ) : Game :=
  { w with bullets :=
      (w.bullets.map (fun b => b.update dt)).filter (fun b => !b.isOutOfScreen) }

/-- Result of running `Enemy::Update` over the enemy list in order. -/
structure MotionResult where
  enemies : List Enemy
  bullets : List Bullet
  bossShared : BossShared
  rng : Rng

/-- The first loop of `Game::UpdateEnemies`: update each enemy in order,
threading the bullet list, the boss statics and the generator. -/
def enemyMotion : List Enemy → ℚ → List Bullet → BossShared → Rng → MotionResult
  | [], _, bs, sh, g => ⟨[], bs, sh, g⟩
  | e :: rest, dt, bs, sh, g =>
    let r := e.updateOne dt bs sh g
    let m := enemyMotion rest dt r.2.1 r.2.2.1 r.2.2.2
    ⟨r.1 :: m.enemies, m.bullets, m.bossShared, m.rng⟩

/-- The drop test applied to the raw uniform draw of `GetRandomValue(0, 100)`
in the enemy-death reaping pass. -/
def dropRollHits (r : Int) : Bool := decide (r < 20)

/-- Embeds `Game::SpawnUpgrade`: append an upgrade of a uniformly random type at the
given position; the `isBossDrop` argument is taken but never read. -/
def spawnUpgrade (ups : List Upgrade) (pos : Vec2) (isBossDrop : Bool) (g : Rng) :
    List Upgrade × Rng :=
  let (r, g1) := getRandomValue 0 2 g
  let t : UpgradeType := if r = 0 then .HEALTH else if r = 1 then .FIRE_RATE else .ATTACK_RANGE
  (ups ++ [{ type := t, pos := pos, fallSpeed := 100, timer := 5, active := true }], g1)

/-- Result of the enemy-death reaping loop. -/
structure ReapResult where
  enemies : List Enemy
  score : Int
  bossesDefeated : Int
  bossActive : Bool
  upgrades : List Upgrade
  notes : List Note
  rng : Rng

/-- The reaping loop of `Game::UpdateEnemies`: each dead enemy is removed and
adds its `scoreValue` to the score; a dead BOSS additionally increments
`bossesDefeated`, clears `bossActive`, always drops an upgrade and posts
"BOSS DEFEATED!"; a dead non-boss drops an upgrade when the uniform draw from
`[0, 100]` passes the `< 20` test. -/
def reapEnemies : List Enemy → Int → Int → Bool → List Upgrade → List Note → Rng → ReapResult
  | [], sc, bd, ba, ups, ns, g => ⟨[], sc, bd, ba, ups, ns, g⟩
  | e :: rest, sc, bd, ba, ups, ns, g =>
    if e.health ≤ 0 then
      if e.type = .BOSS then
        let (ups1, g1) := spawnUpgrade ups e.pos true g
        reapEnemies rest (sc + e.scoreValue) (bd + 1) false ups1
          (ns ++ [⟨"BOSS DEFEATED!", 2⟩]) g1
      else
        let (r, g1) := getRandomValue 0 100 g
        if dropRollHits r then
          let (ups1, g2) := spawnUpgrade ups e.pos false g1
          reapEnemies rest (sc + e.scoreValue) bd ba ups1 ns g2
        else
          reapEnemies rest (sc + e.scoreValue) bd ba ups ns g1
    else
      let m := reapEnemies rest sc bd ba ups ns g
      ⟨e :: m.enemies, m.score, m.bossesDefeated, m.bossActive, m.upgrades, m.notes, m.rng⟩

/-- Embeds `Game::UpdateEnemies`: the motion loop followed by the reaping loop. -/
def updateEnemies (w : Game) (dt : ℚ) (g : Rng) : Game × Rng :=
  let m := enemyMotion w.enemies dt w.bullets w.bossShared g
  let r := reapEnemies m.enemies w.score w.bossesDefeated w.bossActive w.upgrades w.notes m.rng
  ({ w with enemies := r.enemies, bullets := m.bullets, bossShared := m.bossShared,
            score := r.score, bossesDefeated := r.bossesDefeated,
            bossActive := r.bossActive, upgrades := r.upgrades, notes := r.notes },
   r.rng)

/-- Embeds `Game::UpdateUpgrades`: update every upgrade, then erase inactive ones. -/
def updateUpgrades (w : Game) (dt : ℚ) : Game :=
  { w with upgrades :=
      (w.upgrades.map (fun u => u.update dt)).filter (fun u => u.isActive) }

/-- Embeds `Game::UpdateNotifications`: count each entry down and erase expired. -/
def updateNotes (w : Game) (dt : ℚ) : Game :=
  { w with notes := w.notes.filterMap (fun n =>
      let t := n.time - dt
      if t ≤ 0 then none else some ⟨n.text, t⟩) }

/-- Inner loop of collision pass (a): damage the first enemy in iteration
order whose hitbox the bullet overlaps (circle-vs-rect, radius 5) by the
bullet's damage; report whether a hit happened. The enemy is not removed. -/
def damageFirstHit (b : Bullet) : List Enemy → List Enemy × Bool
  | [] => ([], false)
  | e :: rest =>
    if checkCollisionCircleRec b.pos 5 e.hitbox then
      ({ e with health := e.health - b.damage } :: rest, true)
    else
      let r := damageFirstHit b rest
      (e :: r.1, r.2)

/-- Collision pass (a), player bullets vs enemies: every player bullet
resolves against at most one enemy; on a hit only the bullet is erased. -/
def playerBulletsPass : List Bullet → List Enemy → List Bullet × List Enemy
  | [], es => ([], es)
  | b :: bs, es =>
    if b.isPlayerBullet then
      let r := damageFirstHit b es
      if r.2 then
        playerBulletsPass bs r.1
      else
        let m := playerBulletsPass bs r.1
        (b :: m.1, m.2)
    else
      let m := playerBulletsPass bs es
      (b :: m.1, m.2)

/-- Collision pass (b), enemies vs player: every overlapping enemy damages
the player (2 for BOSS, else 1); enemies are unchanged. -/
def enemiesVsPlayer (p : Player) (es : List Enemy) : Player :=
  es.foldl (fun pl e =>
    if checkCollisionRecs pl.hitbox e.hitbox then
      pl.takeDamage (if e.type = .BOSS then 2 else 1)
    else pl) p

/-- Collision pass (c), enemy bullets vs player: an overlapping enemy bullet
damages the player by its damage and is erased. -/
def enemyBulletsVsPlayer (p : Player) : List Bullet → Player × List Bullet
  | [] => (p, [])
  | b :: bs =>
    if b.isPlayerBullet then
      let r := enemyBulletsVsPlayer p bs
      (r.1, b :: r.2)
    else if checkCollisionCircleRec b.pos 5 p.hitbox then
      enemyBulletsVsPlayer (p.takeDamage b.damage) bs
    else
      let r := enemyBulletsVsPlayer p bs
      (r.1, b :: r.2)

/-- Collision pass (d), upgrades vs player: an overlapping active upgrade
applies its stat effect, posts the matching message, and is erased. -/
def upgradesVsPlayer (p : Player) (ns : List Note) :
    List Upgrade → Player × List Note × List Upgrade
  | [] => (p, ns, [])
  | u :: us =>
    if u.isActive && checkCollisionRecs p.hitbox u.hitbox then
      match u.type with
      | .HEALTH => upgradesVsPlayer p.increaseMaxHealth (ns ++ [⟨"MAX HEALTH +1", 2⟩]) us
      | .FIRE_RATE => upgradesVsPlayer p.upgradeFireRate (ns ++ [⟨"FIRE RATE UP!", 2⟩]) us
      | .ATTACK_RANGE => upgradesVsPlayer p.upgradeAttackRange (ns ++ [⟨"ATTACK RANGE +", 2⟩]) us
    else
      let r := upgradesVsPlayer p ns us
      (r.1, r.2.1, u :: r.2.2)

/-- Embeds `Game::CheckCollisions`: the four passes in order. -/
def checkCollisions (w : Game) : Game :=
  let a := playerBulletsPass w.bullets w.enemies
  let p1 := enemiesVsPlayer w.player a.2
  let c := enemyBulletsVsPlayer p1 a.1
  let d := upgradesVsPlayer c.1 w.notes w.upgrades
  { w with bullets := c.2, enemies := a.2, player := d.1,
           notes := d.2.1, upgrades := d.2.2 }

/-- The player-update phase at the start of `Game::UpdateGame`. -/
def playerPhase (w : Game) (dt : ℚ) (inp : FrameInput) : Game :=
  let pu := w.player.update dt inp w.bullets
  { w with player := pu.1, bullets := pu.2 }

/-- The simulation steps of `Game::UpdateGame` after the death check:
spawn scheduling and bullet motion. -/
def preReap (w : Game) (dt : ℚ) (g : Rng) : Game × Rng :=
  let s1 := spawnEnemies w dt g
  let s2 := spawnBoss s1.1 dt s1.2
  (updateBullets s2.1 dt, s2.2)

/-- The rest of `Game::UpdateGame` after the death check. -/
def updateGameCore (w : Game) (dt : ℚ) (g : Rng) : Game × Rng :=
  let pr := preReap w dt g
  let ue := updateEnemies pr.1 dt pr.2
  let w6 := updateUpgrades ue.1 dt
  let w7 := updateNotes w6 dt
  (checkCollisions w7, ue.2)

/-- Embeds `Game::UpdateGame`: player update, then the death check with its early
return to GAME_OVER, then the remaining simulation steps. -/
def updateGame (w : Game) (dt : ℚ) (inp : FrameInput) (g : Rng) : Game × Rng :=
  let w1 := playerPhase w dt inp
  if w1.player.health ≤ 0 then
    ({ w1 with state := .GAME_OVER }, g)
  else
    updateGameCore w1 dt g

/-- Embeds `Game::ResetGame`: clear all collections, reset score, spawn timers and
boss progression, and reset the player via `Player::Reset`. -/
def resetGame (w : Game) : Game :=
  { w with enemies := [], bullets := [], upgrades := [], notes := [],
           score := 0, enemySpawnTimer := 0, bossSpawnTimer := 0,
           bossesDefeated := 0, bossActive := false,
           player := w.player.reset }

/-- One iteration of the loop body of `Game::Run`: the frame time is passed
to `UpdateGame` exactly as the platform reports it (no clamping); in
GAME_OVER, the restart key resets the game and re-enters PLAYING. -/
def runFrame (w : Game) (dt : ℚ) (inp : FrameInput) (g : Rng) : Game × Rng :=
  match w.state with
  | .PLAYING => updateGame w dt inp g
  | .GAME_OVER =>
    if inp.enterPressed then ({ resetGame w with state := .PLAYING }, g)
    else (w, g)

/-- The game states reachable from the fresh game by frames of arbitrary
frame time, input and generator state. -/
inductive Reachable : Game → Prop
  | init : Reachable initialGame
  | step {w : Game} (h : Reachable w) (dt : ℚ) (inp : FrameInput) (g : Rng) :
      Reachable (runFrame w dt inp g).1

/-! ### Observers and concrete sample inputs -/

/-- A concrete generator stream: every raw draw is 0. -/
def zeroRng : Rng := fun _ => 0

/-- A frame with no keys pressed. -/
def noInput : FrameInput := ⟨false, false, false⟩

/-- A frame with only the restart key pressed. -/
def enterInput : FrameInput := ⟨false, false, true⟩

/-- The fields of an enemy that its per-frame update never writes. -/
def stats (e : Enemy) : EnemyType × Int × Int := (e.type, e.health, e.scoreValue)

/-- Number of BOSS-type enemies in a list. -/
def bossCountL (es : List Enemy) : ℕ := es.countP fun e => e.type == .BOSS

/-- Number of dead BOSS-type enemies in a list. -/
def deadBossCountL (es : List Enemy) : ℕ :=
  es.countP fun e => decide (e.health ≤ 0) && (e.type == .BOSS)

/-- Number of BOSS-type enemies in the world. -/
def bossCount (w : Game) : ℕ := bossCountL w.enemies

/-- The inductive invariant behind the boss gate: a boss is in the world
exactly while `bossActive` is set. -/
def BossInv (w : Game) : Prop :=
  bossCountL w.enemies = if w.bossActive then 1 else 0

/-- A reachable state with an active boss: one frame of 61 seconds from the
fresh game passes the 60-second boss threshold. -/
def bossWorld : Game := (runFrame initialGame 61 noInput zeroRng).1

/-- The enemies removed as dead by the enemy-death pass of this frame's
`UpdateGame` call: none if the death check ends the frame early, otherwise
the dead members of the enemy list as it stands when the reaping loop runs
(after spawning and the motion loop). -/
def reapedEnemies (w : Game) (dt : ℚ) (inp : FrameInput) (g : Rng) : List Enemy :=
  let w1 := playerPhase w dt inp
  if w1.player.health ≤ 0 then []
  else
    (enemyMotion (preReap w1 dt g).1.enemies dt (preReap w1 dt g).1.bullets
      (preReap w1 dt g).1.bossShared (preReap w1 dt g).2).enemies.filter
      fun e => decide (e.health ≤ 0)

/-- A PLAYING state holding one dead SIMPLE enemy, about to be reaped. -/
def scoreWorld : Game :=
  { initialGame with
      enemies := [{ Enemy.make ⟨100, 100⟩ .SIMPLE with health := 0 }],
      score := 5 }

def upgradedDeadPlayer : Player :=
  { Player.init with health := 0, maxHealth := 5, fireRate := 3/10, attackRange := 70 }

def sampleGameOver : Game :=
  { initialGame with
      state := .GAME_OVER
      score := 120
      enemies := [Enemy.make ⟨10, 10⟩ .SIMPLE]
      bullets := [Bullet.make ⟨5, 5⟩ true 1]
      notes := [⟨"FIRE RATE UP!", 2⟩]
      bossesDefeated := 1
      bossActive := true
      enemySpawnTimer := 1
      bossSpawnTimer := 30
      player := upgradedDeadPlayer }

/-- A PLAYING state whose player is already at zero health. -/
def deadPlayerGame : Game :=
  { initialGame with player := { Player.init with health := 0 } }

/-- A player bullet overlapping only the second of two enemies. -/
def sampleBullet : Bullet := Bullet.make ⟨100, 300⟩ true 1

def farEnemy : Enemy := Enemy.make ⟨600, 50⟩ .SIMPLE

def nearEnemy : Enemy := Enemy.make ⟨90, 280⟩ .HARD

/-- The operations the game ever performs on the player object. -/
inductive PlayerOp where
  | reset
  | increaseMaxHealth
  | upgradeFireRate
  | upgradeAttackRange
  | takeDamage (amount : Int)
  | update (dt : ℚ) (inp : FrameInput)

/-- Applying one player operation. -/
def PlayerOp.apply (p : Player) : PlayerOp → Player
  | .reset => p.reset
  | .increaseMaxHealth => p.increaseMaxHealth
  | .upgradeFireRate => p.upgradeFireRate
  | .upgradeAttackRange => p.upgradeAttackRange
  | .takeDamage a => p.takeDamage a
  | .update dt inp => (p.update dt inp []).1

/-- Damage amounts used by the game are nonnegative (1, 2, or a bullet's
damage, which is 1 or 2). -/
def PlayerOp.nonnegDamage : PlayerOp → Bool
  | .takeDamage a => decide (0 ≤ a)
  | _ => true

/-- A concrete dead SIMPLE enemy for the C5 witness. -/
def sampleDeadSimple : Enemy :=
  { Enemy.make ⟨100, 200⟩ .SIMPLE with health := 0 }

/-! ### Generator range lemmas -/

lemma getRandomValue_bounds (lo hi : Int) (h : lo ≤ hi) (g : Rng) :
    lo ≤ (getRandomValue lo hi g).1 ∧ (getRandomValue lo hi g).1 ≤ hi := by
  have hkpos : 0 < (hi - lo + 1).toNat := by omega
  have hm : g.head % (hi - lo + 1).toNat < (hi - lo + 1).toNat := Nat.mod_lt _ hkpos
  unfold getRandomValue
  constructor <;> simp only <;> omega

lemma getRandomValue_surj (lo hi r : Int) (hlo : lo ≤ r) (hhi : r ≤ hi) :
    ∃ g : Rng, (getRandomValue lo hi g).1 = r := by
  refine ⟨fun _ => (r - lo).toNat, ?_⟩
  unfold getRandomValue Rng.head
  simp only
  have h1 : (r - lo).toNat < (hi - lo + 1).toNat := by omega
  rw [Nat.mod_eq_of_lt h1]
  omega

/-! ### Enemy motion preserves type, health and score value -/

lemma updateOne_stats (e : Enemy) (dt : ℚ) (bs : List Bullet) (sh : BossShared) (g : Rng) :
    stats (e.updateOne dt bs sh g).1 = stats e := by
  unfold Enemy.updateOne
  dsimp only
  split <;> (repeat' split) <;> simp [stats]

lemma enemyMotion_stats (dt : ℚ) :
    ∀ (es : List Enemy) (bs : List Bullet) (sh : BossShared) (g : Rng),
      (enemyMotion es dt bs sh g).enemies.map stats = es.map stats := by
  intro es
  induction es with
  | nil => intro bs sh g; rfl
  | cons e rest ih =>
    intro bs sh g
    simp [enemyMotion, updateOne_stats, ih]

lemma countP_congr_stats :
    ∀ {l₁ l₂ : List Enemy}, l₁.map stats = l₂.map stats →
      ∀ f : EnemyType × Int × Int → Bool,
        l₁.countP (fun e => f (stats e)) = l₂.countP (fun e => f (stats e)) := by
  intro l₁
  induction l₁ with
  | nil =>
    intro l₂ h f
    cases l₂ with
    | nil => rfl
    | cons b t => simp at h
  | cons a t ih =>
    intro l₂ h f
    cases l₂ with
    | nil => simp at h
    | cons b t₂ =>
      simp only [List.map_cons, List.cons.injEq] at h
      simp [List.countP_cons, ih h.2 f, h.1]

lemma bossCountL_congr_stats {l₁ l₂ : List Enemy} (h : l₁.map stats = l₂.map stats) :
    bossCountL l₁ = bossCountL l₂ :=
  countP_congr_stats h (fun s => s.1 == .BOSS)

lemma deadBossCountL_congr_stats {l₁ l₂ : List Enemy} (h : l₁.map stats = l₂.map stats) :
    deadBossCountL l₁ = deadBossCountL l₂ :=
  countP_congr_stats h (fun s => decide (s.2.1 ≤ 0) && (s.1 == .BOSS))

lemma map_scoreValue_congr_stats {l₁ l₂ : List Enemy} (h : l₁.map stats = l₂.map stats) :
    l₁.map (fun e => e.scoreValue) = l₂.map (fun e => e.scoreValue) := by
  have h2 := congrArg (List.map (fun x : EnemyType × Int × Int => x.2.2)) h
  simpa [List.map_map, Function.comp, stats] using h2

lemma dead_scores_congr_stats :
    ∀ {l₁ l₂ : List Enemy}, l₁.map stats = l₂.map stats →
      ((l₁.filter fun e => decide (e.health ≤ 0)).map fun e => e.scoreValue) =
      ((l₂.filter fun e => decide (e.health ≤ 0)).map fun e => e.scoreValue) := by
  intro l₁
  induction l₁ with
  | nil =>
    intro l₂ h
    cases l₂ with
    | nil => rfl
    | cons b t => simp at h
  | cons a t ih =>
    intro l₂ h
    cases l₂ with
    | nil => simp at h
    | cons b t₂ =>
      simp only [List.map_cons, List.cons.injEq] at h
      have hh : a.health = b.health := by
        have := congrArg (fun x : EnemyType × Int × Int => x.2.1) h.1
        simpa [stats] using this
      have hs : a.scoreValue = b.scoreValue := by
        have := congrArg (fun x : EnemyType × Int × Int => x.2.2) h.1
        simpa [stats] using this
      by_cases hd : a.health ≤ 0
      · have hd2 : b.health ≤ 0 := hh ▸ hd
        simp [List.filter_cons, hd, hd2, ih h.2, hs]
      · have hd2 : ¬ b.health ≤ 0 := hh ▸ hd
        simp [List.filter_cons, hd, hd2, ih h.2]

/-! ### Counting bosses -/

lemma bossCountL_append (l₁ l₂ : List Enemy) :
    bossCountL (l₁ ++ l₂) = bossCountL l₁ + bossCountL l₂ := by
  simp [bossCountL, List.countP_append]

lemma deadBossCountL_append (l₁ l₂ : List Enemy) :
    deadBossCountL (l₁ ++ l₂) = deadBossCountL l₁ + deadBossCountL l₂ := by
  simp [deadBossCountL, List.countP_append]

lemma deadBossCountL_cons (e : Enemy) (rest : List Enemy) :
    deadBossCountL (e :: rest) =
      deadBossCountL rest + (if e.health ≤ 0 ∧ e.type = .BOSS then 1 else 0) := by
  simp only [deadBossCountL, List.countP_cons]
  by_cases hd : e.health ≤ 0 <;> by_cases hb : e.type = .BOSS <;> simp [hd, hb]

lemma bossCountL_cons (e : Enemy) (rest : List Enemy) :
    bossCountL (e :: rest) = bossCountL rest + (if e.type = .BOSS then 1 else 0) := by
  simp only [bossCountL, List.countP_cons]
  by_cases hb : e.type = .BOSS <;> simp [hb]

lemma deadBossCountL_le (es : List Enemy) : deadBossCountL es ≤ bossCountL es := by
  induction es with
  | nil => exact Nat.le_refl 0
  | cons e rest ih =>
    rw [deadBossCountL_cons, bossCountL_cons]
    by_cases hd : e.health ≤ 0 <;> by_cases hb : e.type = .BOSS <;>
      simp [hd, hb] <;> omega

lemma bossCountL_filter_alive (es : List Enemy) :
    bossCountL (es.filter fun e => !decide (e.health ≤ 0)) =
      bossCountL es - deadBossCountL es := by
  induction es with
  | nil => rfl
  | cons e rest ih =>
    have hle := deadBossCountL_le rest
    rw [bossCountL_cons, deadBossCountL_cons, List.filter_cons]
    by_cases hd : e.health ≤ 0
    · have hcond : (!decide (e.health ≤ 0)) = false := by simp [hd]
      rw [hcond]
      simp only [Bool.false_eq_true, if_false]
      rw [ih]
      by_cases hb : e.type = .BOSS
      · rw [if_pos hb,
          if_pos (show e.health ≤ 0 ∧ e.type = .BOSS from ⟨hd, hb⟩)]
        omega
      · rw [if_neg hb,
          if_neg (show ¬ (e.health ≤ 0 ∧ e.type = .BOSS) from fun hc => hb hc.2)]
        omega
    · have hcond : (!decide (e.health ≤ 0)) = true := by simp [hd]
      rw [hcond]
      simp only [if_true]
      rw [bossCountL_cons, ih,
        if_neg (show ¬ (e.health ≤ 0 ∧ e.type = .BOSS) from fun hc => hd hc.1)]
      omega

/-! ### Closed forms for the reaping loop -/

lemma reapEnemies_cons_dead_boss (e : Enemy) (rest : List Enemy) (sc bd : Int)
    (ba : Bool) (ups : List Upgrade) (ns : List Note) (g : Rng)
    (hd : e.health ≤ 0) (hb : e.type = .BOSS) :
    reapEnemies (e :: rest) sc bd ba ups ns g =
      reapEnemies rest (sc + e.scoreValue) (bd + 1) false
        (spawnUpgrade ups e.pos true g).1
        (ns ++ [⟨"BOSS DEFEATED!", 2⟩]) (spawnUpgrade ups e.pos true g).2 := by
  conv_lhs => rw [reapEnemies]
  simp [hd, hb]

lemma reapEnemies_cons_dead_nonboss (e : Enemy) (rest : List Enemy) (sc bd : Int)
    (ba : Bool) (ups : List Upgrade) (ns : List Note) (g : Rng)
    (hd : e.health ≤ 0) (hb : ¬ e.type = .BOSS) :
    reapEnemies (e :: rest) sc bd ba ups ns g =
      (if dropRollHits (getRandomValue 0 100 g).1 then
        reapEnemies rest (sc + e.scoreValue) bd ba
          (spawnUpgrade ups e.pos false (getRandomValue 0 100 g).2).1 ns
          (spawnUpgrade ups e.pos false (getRandomValue 0 100 g).2).2
      else
        reapEnemies rest (sc + e.scoreValue) bd ba ups ns (getRandomValue 0 100 g).2) := by
  conv_lhs => rw [reapEnemies]
  simp [hd, hb]

lemma reapEnemies_cons_alive (e : Enemy) (rest : List Enemy) (sc bd : Int)
    (ba : Bool) (ups : List Upgrade) (ns : List Note) (g : Rng)
    (hd : ¬ e.health ≤ 0) :
    reapEnemies (e :: rest) sc bd ba ups ns g =
      { reapEnemies rest sc bd ba ups ns g with
        enemies := e :: (reapEnemies rest sc bd ba ups ns g).enemies } := by
  conv_lhs => rw [reapEnemies]
  simp [hd]

lemma reapEnemies_spec :
    ∀ (es : List Enemy) (sc bd : Int) (ba : Bool) (ups : List Upgrade)
      (ns : List Note) (g : Rng),
      (reapEnemies es sc bd ba ups ns g).enemies =
        es.filter (fun e => !decide (e.health ≤ 0)) ∧
      (reapEnemies es sc bd ba ups ns g).score =
        sc + ((es.filter fun e => decide (e.health ≤ 0)).map fun e => e.scoreValue).sum ∧
      (reapEnemies es sc bd ba ups ns g).bossesDefeated =
        bd + (deadBossCountL es : Int) ∧
      (reapEnemies es sc bd ba ups ns g).bossActive =
        (ba && decide (deadBossCountL es = 0)) := by
  intro es
  induction es with
  | nil =>
    intro sc bd ba ups ns g
    simp [reapEnemies, deadBossCountL]
  | cons e rest ih =>
    intro sc bd ba ups ns g
    by_cases hd : e.health ≤ 0
    · by_cases hb : e.type = .BOSS
      · rw [reapEnemies_cons_dead_boss e rest sc bd ba ups ns g hd hb]
        obtain ⟨h1, h2, h3, h4⟩ := ih (sc + e.scoreValue) (bd + 1) false
          (spawnUpgrade ups e.pos true g).1
          (ns ++ [⟨"BOSS DEFEATED!", 2⟩]) (spawnUpgrade ups e.pos true g).2
        have hdb : deadBossCountL (e :: rest) = deadBossCountL rest + 1 := by
          rw [deadBossCountL_cons,
            if_pos (show e.health ≤ 0 ∧ e.type = .BOSS from ⟨hd, hb⟩)]
        refine ⟨?_, ?_, ?_, ?_⟩
        · rw [h1, List.filter_cons]
          simp [hd]
        · rw [h2, List.filter_cons]
          simp only [hd, decide_true_eq_true, decide_eq_true_eq, if_pos,
            List.map_cons, List.sum_cons]
          ring
        · rw [h3, hdb]
          push_cast
          ring
        · rw [h4, hdb]
          simp
      · rw [reapEnemies_cons_dead_nonboss e rest sc bd ba ups ns g hd hb]
        have hdb : deadBossCountL (e :: rest) = deadBossCountL rest := by
          rw [deadBossCountL_cons,
            if_neg (show ¬ (e.health ≤ 0 ∧ e.type = .BOSS) from fun hc => hb hc.2)]
          ring
        have harith : ∀ u' n' g',
            (reapEnemies rest (sc + e.scoreValue) bd ba u' n' g').enemies =
              (e :: rest).filter (fun x => !decide (x.health ≤ 0)) ∧
            (reapEnemies rest (sc + e.scoreValue) bd ba u' n' g').score =
              sc + ((((e :: rest).filter fun x => decide (x.health ≤ 0)).map
                fun x => x.scoreValue).sum) ∧
            (reapEnemies rest (sc + e.scoreValue) bd ba u' n' g').bossesDefeated =
              bd + (deadBossCountL (e :: rest) : Int) ∧
            (reapEnemies rest (sc + e.scoreValue) bd ba u' n' g').bossActive =
              (ba && decide (deadBossCountL (e :: rest) = 0)) := by
          intro u' n' g'
          obtain ⟨h1, h2, h3, h4⟩ := ih (sc + e.scoreValue) bd ba u' n' g'
          refine ⟨?_, ?_, ?_, ?_⟩
          · rw [h1, List.filter_cons]
            simp [hd]
          · rw [h2, List.filter_cons]
            simp only [hd, decide_true_eq_true, decide_eq_true_eq, if_pos,
              List.map_cons, List.sum_cons]
            ring
          · rw [h3, hdb]
          · rw [h4, hdb]
        by_cases hroll : dropRollHits (getRandomValue 0 100 g).1 = true
        · rw [if_pos hroll]
          exact harith _ _ _
        · rw [if_neg hroll]
          exact harith _ _ _
    · rw [reapEnemies_cons_alive e rest sc bd ba ups ns g hd]
      obtain ⟨h1, h2, h3, h4⟩ := ih sc bd ba ups ns g
      have hdb : deadBossCountL (e :: rest) = deadBossCountL rest := by
        rw [deadBossCountL_cons,
          if_neg (show ¬ (e.health ≤ 0 ∧ e.type = .BOSS) from fun hc => hd hc.1)]
        ring
      refine ⟨?_, ?_, ?_, ?_⟩
      · show e :: (reapEnemies rest sc bd ba ups ns g).enemies = _
        rw [h1, List.filter_cons]
        simp [hd]
      · show (reapEnemies rest sc bd ba ups ns g).score = _
        rw [h2, List.filter_cons]
        simp [hd]
      · show (reapEnemies rest sc bd ba ups ns g).bossesDefeated = _
        rw [h3, hdb]
      · show (reapEnemies rest sc bd ba ups ns g).bossActive = _
        rw [h4, hdb]

/-! ### Collision passes never add or remove enemies, nor touch progression -/

lemma damageFirstHit_types (b : Bullet) :
    ∀ es : List Enemy,
      ((damageFirstHit b es).1).map (fun e => e.type) = es.map (fun e => e.type) := by
  intro es
  induction es with
  | nil => rfl
  | cons e rest ih =>
    unfold damageFirstHit
    dsimp only
    split
    · simp
    · simpa using ih

lemma playerBulletsPass_types :
    ∀ (bs : List Bullet) (es : List Enemy),
      ((playerBulletsPass bs es).2).map (fun e => e.type) = es.map (fun e => e.type) := by
  intro bs
  induction bs with
  | nil => intro es; rfl
  | cons b t ih =>
    intro es
    unfold playerBulletsPass
    dsimp only
    split
    · split
      · exact (ih _).trans (damageFirstHit_types b es)
      · simpa using (ih _).trans (damageFirstHit_types b es)
    · simpa using ih es

lemma bossCountL_congr_types :
    ∀ {l₁ l₂ : List Enemy},
      l₁.map (fun e => e.type) = l₂.map (fun e => e.type) →
      bossCountL l₁ = bossCountL l₂ := by
  intro l₁
  induction l₁ with
  | nil =>
    intro l₂ h
    cases l₂ with
    | nil => rfl
    | cons b t => simp at h
  | cons a t ih =>
    intro l₂ h
    cases l₂ with
    | nil => simp at h
    | cons b t₂ =>
      simp only [List.map_cons, List.cons.injEq] at h
      rw [bossCountL_cons, bossCountL_cons, ih h.2, h.1]

lemma checkCollisions_fixed (w : Game) :
    (checkCollisions w).score = w.score ∧
    (checkCollisions w).bossesDefeated = w.bossesDefeated ∧
    (checkCollisions w).bossActive = w.bossActive ∧
    (checkCollisions w).enemySpawnTimer = w.enemySpawnTimer ∧
    (checkCollisions w).bossSpawnTimer = w.bossSpawnTimer ∧
    (checkCollisions w).state = w.state ∧
    bossCountL (checkCollisions w).enemies = bossCountL w.enemies := by
  refine ⟨rfl, rfl, rfl, rfl, rfl, rfl, ?_⟩
  exact bossCountL_congr_types (playerBulletsPass_types w.bullets w.enemies)

/-! ### Spawning facts -/

lemma tierType_ne_boss (bd : Int) : tierType bd ≠ .BOSS := by
  unfold tierType
  split
  · decide
  · split <;> decide

lemma make_scoreValue_nonneg (pos : Vec2) (t : EnemyType) :
    0 ≤ (Enemy.make pos t).scoreValue := by
  cases t <;> simp [Enemy.make]

lemma spawnEnemyLoop_spec (bd : Int) :
    ∀ (n : ℕ) (es : List Enemy) (g : Rng),
      ∃ new : List Enemy, (spawnEnemyLoop bd n es g).1 = es ++ new ∧
        ∀ e ∈ new, e.type = tierType bd ∧ 0 ≤ e.scoreValue := by
  intro n
  induction n with
  | zero =>
    intro es g
    exact ⟨[], by simp [spawnEnemyLoop], by simp⟩
  | succ m ih =>
    intro es g
    obtain ⟨new, h1, h2⟩ := ih
      (es ++ [Enemy.make ⟨((getRandomValue 0 760 g).1 : ℚ), -40⟩ (tierType bd)])
      (getRandomValue 0 760 g).2
    refine ⟨Enemy.make ⟨((getRandomValue 0 760 g).1 : ℚ), -40⟩ (tierType bd) :: new, ?_, ?_⟩
    · conv_lhs => rw [spawnEnemyLoop]
      rw [h1]
      simp
    · intro e he
      rcases List.mem_cons.mp he with rfl | he2
      · exact ⟨rfl, make_scoreValue_nonneg _ _⟩
      · exact h2 e he2

lemma spawnEnemies_spec (w : Game) (dt : ℚ) (g : Rng) :
    (spawnEnemies w dt g).1.score = w.score ∧
    (spawnEnemies w dt g).1.bossActive = w.bossActive ∧
    (spawnEnemies w dt g).1.bossesDefeated = w.bossesDefeated ∧
    (spawnEnemies w dt g).1.bullets = w.bullets ∧
    (spawnEnemies w dt g).1.upgrades = w.upgrades ∧
    (spawnEnemies w dt g).1.notes = w.notes ∧
    (spawnEnemies w dt g).1.player = w.player ∧
    (spawnEnemies w dt g).1.state = w.state ∧
    (spawnEnemies w dt g).1.bossShared = w.bossShared ∧
    ∃ new : List Enemy, (spawnEnemies w dt g).1.enemies = w.enemies ++ new ∧
      ∀ e ∈ new, e.type ≠ .BOSS ∧ 0 ≤ e.scoreValue := by
  unfold spawnEnemies
  dsimp only
  split
  · obtain ⟨new, h1, h2⟩ := spawnEnemyLoop_spec w.bossesDefeated
      (getRandomValue 1 4 g).1.toNat w.enemies (getRandomValue 1 4 g).2
    exact ⟨rfl, rfl, rfl, rfl, rfl, rfl, rfl, rfl, rfl, new, h1,
      fun e he => ⟨(h2 e he).1 ▸ tierType_ne_boss w.bossesDefeated, (h2 e he).2⟩⟩
  · exact ⟨rfl, rfl, rfl, rfl, rfl, rfl, rfl, rfl, rfl, [], by simp, by simp⟩

lemma spawnBoss_active (w : Game) (dt : ℚ) (g : Rng) (h : w.bossActive = true) :
    spawnBoss w dt g = (w, g) := by
  unfold spawnBoss
  simp [h]

lemma spawnBoss_spec (w : Game) (dt : ℚ) (g : Rng) :
    (spawnBoss w dt g).1.score = w.score ∧
    (spawnBoss w dt g).1.bossesDefeated = w.bossesDefeated ∧
    (spawnBoss w dt g).1.bullets = w.bullets ∧
    (spawnBoss w dt g).1.upgrades = w.upgrades ∧
    (spawnBoss w dt g).1.player = w.player ∧
    (spawnBoss w dt g).1.state = w.state ∧
    (spawnBoss w dt g).1.bossShared = w.bossShared ∧
    (((spawnBoss w dt g).1.bossActive = w.bossActive ∧
      (spawnBoss w dt g).1.enemies = w.enemies) ∨
     (w.bossActive = false ∧ (spawnBoss w dt g).1.bossActive = true ∧
      (spawnBoss w dt g).1.enemies =
        w.enemies ++ [Enemy.make ⟨screenWidth / 2 - 60, -120⟩ .BOSS])) := by
  unfold spawnBoss
  dsimp only
  split
  · exact ⟨rfl, rfl, rfl, rfl, rfl, rfl, rfl, .inl ⟨rfl, rfl⟩⟩
  · next hba =>
    split
    · exact ⟨rfl, rfl, rfl, rfl, rfl, rfl, rfl,
        .inr ⟨by simpa using hba, rfl, rfl⟩⟩
    · exact ⟨rfl, rfl, rfl, rfl, rfl, rfl, rfl, .inl ⟨rfl, rfl⟩⟩

/-! ### The enemy-update step, assembled -/

lemma updateEnemies_spec (w : Game) (dt : ℚ) (g : Rng) :
    (updateEnemies w dt g).1.score =
      w.score + ((w.enemies.filter fun e => decide (e.health ≤ 0)).map
        fun e => e.scoreValue).sum ∧
    (updateEnemies w dt g).1.bossesDefeated =
      w.bossesDefeated + (deadBossCountL w.enemies : Int) ∧
    (updateEnemies w dt g).1.bossActive =
      (w.bossActive && decide (deadBossCountL w.enemies = 0)) ∧
    bossCountL (updateEnemies w dt g).1.enemies =
      bossCountL w.enemies - deadBossCountL w.enemies ∧
    (updateEnemies w dt g).1.player = w.player ∧
    (updateEnemies w dt g).1.state = w.state ∧
    (updateEnemies w dt g).1.enemySpawnTimer = w.enemySpawnTimer ∧
    (updateEnemies w dt g).1.bossSpawnTimer = w.bossSpawnTimer := by
  have hstats := enemyMotion_stats dt w.enemies w.bullets w.bossShared g
  obtain ⟨h1, h2, h3, h4⟩ := reapEnemies_spec
    (enemyMotion w.enemies dt w.bullets w.bossShared g).enemies
    w.score w.bossesDefeated w.bossActive w.upgrades w.notes
    (enemyMotion w.enemies dt w.bullets w.bossShared g).rng
  have hdead := deadBossCountL_congr_stats hstats
  refine ⟨?_, ?_, ?_, ?_, rfl, rfl, rfl, rfl⟩
  · show (reapEnemies _ _ _ _ _ _ _).score = _
    rw [h2, dead_scores_congr_stats hstats]
  · show (reapEnemies _ _ _ _ _ _ _).bossesDefeated = _
    rw [h3, hdead]
  · show (reapEnemies _ _ _ _ _ _ _).bossActive = _
    rw [h4, hdead]
  · show bossCountL (reapEnemies _ _ _ _ _ _ _).enemies = _
    rw [h1, bossCountL_filter_alive, bossCountL_congr_stats hstats, hdead]

/-! ### The boss-count invariant -/

lemma bossInv_updateGame (w : Game) (hw : BossInv w) (dt : ℚ) (inp : FrameInput)
    (g : Rng) : BossInv (updateGame w dt inp g).1 := by
  unfold updateGame
  dsimp only
  split
  · exact hw
  · unfold updateGameCore preReap
    dsimp only
    obtain ⟨-, hba1, -, -, -, -, -, -, -, new1, hen1, hnew1⟩ :=
      spawnEnemies_spec (playerPhase w dt inp) dt g
    have hnew1boss : bossCountL new1 = 0 := by
      unfold bossCountL
      rw [List.countP_eq_zero]
      intro e he
      simpa using (hnew1 e he).1
    have hcount1 : bossCountL (spawnEnemies (playerPhase w dt inp) dt g).1.enemies =
        if (spawnEnemies (playerPhase w dt inp) dt g).1.bossActive then 1 else 0 := by
      rw [hen1, bossCountL_append, hnew1boss, hba1]
      exact hw
    obtain ⟨-, -, -, -, -, -, -, hcase⟩ :=
      spawnBoss_spec (spawnEnemies (playerPhase w dt inp) dt g).1 dt
        (spawnEnemies (playerPhase w dt inp) dt g).2
    set s1 := (spawnEnemies (playerPhase w dt inp) dt g).1
    set s2p := (spawnBoss s1 dt (spawnEnemies (playerPhase w dt inp) dt g).2).1
    have hcount2 : bossCountL s2p.enemies = if s2p.bossActive then 1 else 0 := by
      rcases hcase with ⟨hb, he⟩ | ⟨hb0, hb1, he⟩
      · rw [he, hb]
        exact hcount1
      · rw [he, bossCountL_append, hb1]
        rw [hb0] at hcount1
        simp only [if_false, Bool.false_eq_true] at hcount1
        rw [hcount1]
        rfl
    obtain ⟨-, -, hba3, hcnt3, -, -, -, -⟩ :=
      updateEnemies_spec (updateBullets s2p dt) dt
        (spawnBoss s1 dt (spawnEnemies (playerPhase w dt inp) dt g).2).2
    have hb_bullets : (updateBullets s2p dt).enemies = s2p.enemies := rfl
    have hba_bullets : (updateBullets s2p dt).bossActive = s2p.bossActive := rfl
    unfold BossInv
    obtain ⟨-, -, hccba, -, -, -, hcccnt⟩ :=
      checkCollisions_fixed (updateNotes (updateUpgrades
        (updateEnemies (updateBullets s2p dt) dt
          (spawnBoss s1 dt (spawnEnemies (playerPhase w dt inp) dt g).2).2).1 dt) dt)
    rw [show (checkCollisions (updateNotes (updateUpgrades
        (updateEnemies (updateBullets s2p dt) dt
          (spawnBoss s1 dt (spawnEnemies (playerPhase w dt inp) dt g).2).2).1 dt) dt)) =
        (checkCollisions (updateNotes (updateUpgrades
        (updateEnemies (updateBullets s2p dt) dt
          (spawnBoss s1 dt (spawnEnemies (playerPhase w dt inp) dt g).2).2).1 dt) dt))
      from rfl]
    rw [hcccnt, hccba]
    show bossCountL (updateEnemies (updateBullets s2p dt) dt _).1.enemies =
      if (updateEnemies (updateBullets s2p dt) dt _).1.bossActive then 1 else 0
    rw [hcnt3, hba3, hb_bullets, hba_bullets, hcount2]
    have hdle := deadBossCountL_le s2p.enemies
    by_cases hb : s2p.bossActive = true
    · rw [hb] at hcount2 ⊢
      simp only [if_true] at hcount2 ⊢
      rw [hcount2] at hdle
      interval_cases h : deadBossCountL s2p.enemies
      · simp [hcount2]
      · simp [hcount2]
    · have hb0 : s2p.bossActive = false := by
        revert hb
        cases s2p.bossActive <;> simp
      rw [hb0] at hcount2 ⊢
      simp only [Bool.false_eq_true, if_false] at hcount2 ⊢
      have : deadBossCountL s2p.enemies = 0 := by omega
      simp [this, hcount2]

lemma bossInv_reachable (w : Game) (h : Reachable w) : BossInv w := by
  induction h with
  | init => simp [BossInv, initialGame, bossCountL]
  | step hr dt inp g ih =>
    next w' =>
    unfold runFrame
    cases hst : w'.state with
    | PLAYING =>
      exact bossInv_updateGame w' ih dt inp g
    | GAME_OVER =>
      dsimp only
      split
      · simp [BossInv, resetGame, bossCountL]
      · exact ih

lemma updateGameCore_boss_iff (w1 : Game) (g : Rng) (dt : ℚ)
    (hba1 : w1.bossActive = true) (hcnt : bossCountL w1.enemies = 1) :
    ((updateGameCore w1 dt g).1.bossActive = false ↔
      (updateGameCore w1 dt g).1.bossesDefeated = w1.bossesDefeated + 1) := by
  unfold updateGameCore preReap
  dsimp only
  obtain ⟨-, hba1s, hbd1, -, -, -, -, -, -, new1, hen1, hnew1⟩ := spawnEnemies_spec w1 dt g
  set s1 := (spawnEnemies w1 dt g).1 with hs1def
  have hba1' : s1.bossActive = true := by rw [hba1s, hba1]
  have hsb := spawnBoss_active s1 dt (spawnEnemies w1 dt g).2 hba1'
  rw [hsb]
  dsimp only
  obtain ⟨-, hbd3, hba3, -, -, -, -, -⟩ :=
    updateEnemies_spec (updateBullets s1 dt) dt (spawnEnemies w1 dt g).2
  have hfba : (checkCollisions (updateNotes (updateUpgrades
      (updateEnemies (updateBullets s1 dt) dt (spawnEnemies w1 dt g).2).1 dt) dt)).bossActive =
      (updateEnemies (updateBullets s1 dt) dt (spawnEnemies w1 dt g).2).1.bossActive := rfl
  have hfbd : (checkCollisions (updateNotes (updateUpgrades
      (updateEnemies (updateBullets s1 dt) dt (spawnEnemies w1 dt g).2).1 dt) dt)).bossesDefeated =
      (updateEnemies (updateBullets s1 dt) dt (spawnEnemies w1 dt g).2).1.bossesDefeated := rfl
  rw [hfba, hfbd, hba3, hbd3]
  have hubE : (updateBullets s1 dt).enemies = s1.enemies := rfl
  have hubB : (updateBullets s1 dt).bossActive = s1.bossActive := rfl
  have hubD : (updateBullets s1 dt).bossesDefeated = s1.bossesDefeated := rfl
  have hsbd : s1.bossesDefeated = w1.bossesDefeated := hbd1
  have hD0 : deadBossCountL new1 = 0 := by
    unfold deadBossCountL
    rw [List.countP_eq_zero]
    intro e he
    simp [(hnew1 e he).1]
  have hDs : deadBossCountL s1.enemies = deadBossCountL w1.enemies := by
    rw [hen1, deadBossCountL_append, hD0]
    omega
  have hle := deadBossCountL_le w1.enemies
  rw [hubE, hubB, hubD, hba1', hsbd, hDs, Bool.true_and]
  rw [hcnt] at hle
  constructor
  · intro hdec
    have hne : ¬ (deadBossCountL w1.enemies = 0) := by
      intro h0
      rw [h0] at hdec
      simp at hdec
    have h1 : deadBossCountL w1.enemies = 1 := by omega
    rw [h1]
    push_cast
    ring
  · intro hsum
    have h1 : (deadBossCountL w1.enemies : Int) = 1 := by omega
    have h2 : deadBossCountL w1.enemies = 1 := by exact_mod_cast h1
    simp [h2]

/-! ### C2 — the boss gate -/

/-- C2: in every reachable state with `bossActive` set there is exactly one
(so at most one) BOSS enemy; `SpawnBoss` is a no-op while `bossActive` holds,
so the spawner never adds a second boss; and over a whole `UpdateGame` frame
from such a state, `bossActive` is cleared exactly when a boss death is
reaped, which happens exactly when `bossesDefeated` is incremented. -/
theorem boss_gating (w : Game) (h : Reachable w) (dt : ℚ) (inp : FrameInput)
    (g : Rng) (hba : w.bossActive = true) :
    bossCount w = 1 ∧
    spawnBoss w dt g = (w, g) ∧
    ((updateGame w dt inp g).1.bossActive = false ↔
      (updateGame w dt inp g).1.bossesDefeated = w.bossesDefeated + 1) := by
  have hinv := bossInv_reachable w h
  unfold BossInv at hinv
  rw [hba] at hinv
  simp only [if_true] at hinv
  refine ⟨hinv, spawnBoss_active w dt g hba, ?_⟩
  unfold updateGame
  dsimp only
  split
  · constructor
    · intro hfalse
      have hba' : ({ playerPhase w dt inp with state := GameState.GAME_OVER },
          g).1.bossActive = true := hba
      exact absurd (hba'.symm.trans hfalse) (by simp)
    · intro hbd
      exfalso
      have hbd' : w.bossesDefeated = w.bossesDefeated + 1 := hbd
      omega
  · have hiff := updateGameCore_boss_iff (playerPhase w dt inp) g dt hba hinv
    exact hiff

theorem boss_gating_witness :
    bossCount bossWorld = 1 ∧
    spawnBoss bossWorld 1 zeroRng = (bossWorld, zeroRng) ∧
    ((updateGame bossWorld 1 noInput zeroRng).1.bossActive = false ↔
      (updateGame bossWorld 1 noInput zeroRng).1.bossesDefeated =
        bossWorld.bossesDefeated + 1) :=
  boss_gating bossWorld (Reachable.step Reachable.init 61 noInput zeroRng)
    1 noInput zeroRng (by decide)

/-! ### C9 — score accounting -/

lemma updateGameCore_score (w1 : Game) (dt : ℚ) (g : Rng) :
    (updateGameCore w1 dt g).1.score =
      w1.score +
      (((enemyMotion (preReap w1 dt g).1.enemies dt (preReap w1 dt g).1.bullets
          (preReap w1 dt g).1.bossShared (preReap w1 dt g).2).enemies.filter
            fun e => decide (e.health ≤ 0)).map (fun e => e.scoreValue)).sum := by
  have hch : (updateGameCore w1 dt g).1.score =
      (updateEnemies (preReap w1 dt g).1 dt (preReap w1 dt g).2).1.score := rfl
  rw [hch]
  obtain ⟨hsc, -, -, -, -, -, -, -⟩ :=
    updateEnemies_spec (preReap w1 dt g).1 dt (preReap w1 dt g).2
  rw [hsc]
  have hprscore : (preReap w1 dt g).1.score = w1.score := by
    have h1 := (spawnBoss_spec (spawnEnemies w1 dt g).1 dt (spawnEnemies w1 dt g).2).1
    have h2 := (spawnEnemies_spec w1 dt g).1
    show (spawnBoss (spawnEnemies w1 dt g).1 dt (spawnEnemies w1 dt g).2).1.score = w1.score
    rw [h1, h2]
  rw [hprscore]
  have hstats := enemyMotion_stats dt (preReap w1 dt g).1.enemies
    (preReap w1 dt g).1.bullets (preReap w1 dt g).1.bossShared (preReap w1 dt g).2
  rw [dead_scores_congr_stats hstats]

lemma updateGameCore_reaped_nonneg (w1 : Game) (dt : ℚ) (g : Rng)
    (hpos : ∀ e ∈ w1.enemies, 0 ≤ e.scoreValue) :
    ∀ v ∈ ((enemyMotion (preReap w1 dt g).1.enemies dt (preReap w1 dt g).1.bullets
        (preReap w1 dt g).1.bossShared (preReap w1 dt g).2).enemies.filter
          fun e => decide (e.health ≤ 0)).map (fun e => e.scoreValue), 0 ≤ v := by
  intro v hv
  rw [List.mem_map] at hv
  obtain ⟨e', he', rfl⟩ := hv
  have he'm := List.mem_of_mem_filter he'
  have hstats := enemyMotion_stats dt (preReap w1 dt g).1.enemies
    (preReap w1 dt g).1.bullets (preReap w1 dt g).1.bossShared (preReap w1 dt g).2
  have hmapsv := map_scoreValue_congr_stats hstats
  have hmem : e'.scoreValue ∈ (preReap w1 dt g).1.enemies.map (fun e => e.scoreValue) := by
    rw [← hmapsv]
    exact List.mem_map_of_mem _ he'm
  rw [List.mem_map] at hmem
  obtain ⟨e2, he2, heq⟩ := hmem
  rw [← heq]
  have hprE : (preReap w1 dt g).1.enemies =
      (spawnBoss (spawnEnemies w1 dt g).1 dt (spawnEnemies w1 dt g).2).1.enemies := rfl
  obtain ⟨-, -, -, -, -, -, -, -, -, new1, hen1, hnew1⟩ := spawnEnemies_spec w1 dt g
  obtain ⟨-, -, -, -, -, -, -, hcase⟩ :=
    spawnBoss_spec (spawnEnemies w1 dt g).1 dt (spawnEnemies w1 dt g).2
  rw [hprE] at he2
  rcases hcase with ⟨-, he⟩ | ⟨-, -, he⟩
  · rw [he, hen1] at he2
    rcases List.mem_append.mp he2 with hm | hm
    · exact hpos _ hm
    · exact (hnew1 _ hm).2
  · rw [he, hen1] at he2
    rcases List.mem_append.mp he2 with hm | hm
    · rcases List.mem_append.mp hm with hm2 | hm2
      · exact hpos _ hm2
      · exact (hnew1 _ hm2).2
    · rw [List.mem_singleton] at hm
      subst hm
      exact make_scoreValue_nonneg _ _

/-- C9: within one `UpdateGame` call in PLAYING, the score changes by
exactly the sum of the `scoreValue`s of the enemies reaped as dead in that
call's enemy-death pass; in particular (score values being nonnegative) the
score never decreases, and the restart path is what resets it to 0. -/
theorem score_accounting (w : Game) (dt : ℚ) (inp : FrameInput) (g : Rng)
    (hpos : ∀ e ∈ w.enemies, 0 ≤ e.scoreValue) :
    (updateGame w dt inp g).1.score =
      w.score + ((reapedEnemies w dt inp g).map fun e => e.scoreValue).sum ∧
    w.score ≤ (updateGame w dt inp g).1.score ∧
    (resetGame w).score = 0 := by
  have h3 : (resetGame w).score = 0 := rfl
  by_cases hdead : (playerPhase w dt inp).player.health ≤ 0
  · have h1 : (updateGame w dt inp g).1.score = w.score := by
      unfold updateGame
      dsimp only
      rw [if_pos hdead]
      rfl
    have h2 : reapedEnemies w dt inp g = [] := by
      unfold reapedEnemies
      dsimp only
      rw [if_pos hdead]
    refine ⟨?_, ?_, h3⟩
    · rw [h1, h2]
      simp
    · rw [h1]
  · have h1 : (updateGame w dt inp g).1 = (updateGameCore (playerPhase w dt inp) dt g).1 := by
      unfold updateGame
      dsimp only
      rw [if_neg hdead]
    have h2 : reapedEnemies w dt inp g =
        (enemyMotion (preReap (playerPhase w dt inp) dt g).1.enemies dt
          (preReap (playerPhase w dt inp) dt g).1.bullets
          (preReap (playerPhase w dt inp) dt g).1.bossShared
          (preReap (playerPhase w dt inp) dt g).2).enemies.filter
          (fun e => decide (e.health ≤ 0)) := by
      unfold reapedEnemies
      dsimp only
      rw [if_neg hdead]
    have hsc := updateGameCore_score (playerPhase w dt inp) dt g
    have hpos1 : ∀ e ∈ (playerPhase w dt inp).enemies, 0 ≤ e.scoreValue := hpos
    have hnn := updateGameCore_reaped_nonneg (playerPhase w dt inp) dt g hpos1
    have hw1score : (playerPhase w dt inp).score = w.score := rfl
    refine ⟨?_, ?_, h3⟩
    · rw [h1, hsc, hw1score, h2]
    · rw [h1, hsc, hw1score]
      have hs := List.sum_nonneg hnn
      omega

theorem score_accounting_witness :
    (updateGame scoreWorld 1 noInput zeroRng).1.score =
      scoreWorld.score + ((reapedEnemies scoreWorld 1 noInput zeroRng).map
        fun e => e.scoreValue).sum ∧
    scoreWorld.score ≤ (updateGame scoreWorld 1 noInput zeroRng).1.score ∧
    (resetGame scoreWorld).score = 0 :=
  score_accounting scoreWorld 1 noInput zeroRng (by decide)

/-! ### C4 — restart resets the world but keeps permanent player upgrades -/

/-- C4: restart from GAME_OVER runs `ResetGame` and re-enters PLAYING; this
empties the enemies, bullets, upgrades and message collections, zeroes score,
both spawn timers and `bossesDefeated`, clears `bossActive`, and resets the
player's position, fire cooldown and health to the current `maxHealth`, while
`maxHealth`, `fireRate` and `attackRange` keep their upgraded values. -/
theorem restart_resets_game (w : Game) (dt : ℚ) (inp : FrameInput) (g : Rng)
    (hs : w.state = .GAME_OVER) (he : inp.enterPressed = true) :
    runFrame w dt inp g = ({ resetGame w with state := .PLAYING }, g) ∧
    (resetGame w).enemies = [] ∧
    (resetGame w).bullets = [] ∧
    (resetGame w).upgrades = [] ∧
    (resetGame w).notes = [] ∧
    (resetGame w).score = 0 ∧
    (resetGame w).enemySpawnTimer = 0 ∧
    (resetGame w).bossSpawnTimer = 0 ∧
    (resetGame w).bossesDefeated = 0 ∧
    (resetGame w).bossActive = false ∧
    (resetGame w).player.pos = ⟨400, 550⟩ ∧
    (resetGame w).player.fireCooldown = 0 ∧
    (resetGame w).player.health = w.player.maxHealth ∧
    (resetGame w).player.maxHealth = w.player.maxHealth ∧
    (resetGame w).player.fireRate = w.player.fireRate ∧
    (resetGame w).player.attackRange = w.player.attackRange := by
  refine ⟨?_, ?_⟩
  · simp [runFrame, hs, he]
  · simp [resetGame, Player.reset]

/-- A concrete GAME_OVER state reached after upgrades, for the C4 witness. -/
theorem restart_resets_game_witness :
    runFrame sampleGameOver 1 enterInput zeroRng =
      ({ resetGame sampleGameOver with state := .PLAYING }, zeroRng) ∧
    (resetGame sampleGameOver).enemies = [] ∧
    (resetGame sampleGameOver).bullets = [] ∧
    (resetGame sampleGameOver).upgrades = [] ∧
    (resetGame sampleGameOver).notes = [] ∧
    (resetGame sampleGameOver).score = 0 ∧
    (resetGame sampleGameOver).enemySpawnTimer = 0 ∧
    (resetGame sampleGameOver).bossSpawnTimer = 0 ∧
    (resetGame sampleGameOver).bossesDefeated = 0 ∧
    (resetGame sampleGameOver).bossActive = false ∧
    (resetGame sampleGameOver).player.pos = ⟨400, 550⟩ ∧
    (resetGame sampleGameOver).player.fireCooldown = 0 ∧
    (resetGame sampleGameOver).player.health = sampleGameOver.player.maxHealth ∧
    (resetGame sampleGameOver).player.maxHealth = sampleGameOver.player.maxHealth ∧
    (resetGame sampleGameOver).player.fireRate = sampleGameOver.player.fireRate ∧
    (resetGame sampleGameOver).player.attackRange = sampleGameOver.player.attackRange :=
  restart_resets_game sampleGameOver 1 enterInput zeroRng (by decide) (by decide)

/-! ### C6 — the fire-rate floor -/

lemma upgradeFireRate_ge_floor (p : Player) : 1/10 ≤ p.upgradeFireRate.fireRate := by
  unfold Player.upgradeFireRate
  dsimp only
  split
  · norm_num
  · next h => linarith [not_lt.mp h]

/-- C6: starting from any `fireRate ≥ 0.1`, any number of repeated
`UpgradeFireRate` calls leaves `fireRate ≥ 0.1`; each single call subtracts
0.1 unless the result would drop below 0.1, in which case the rate is set to
exactly 0.1. -/
theorem fireRate_floor (p : Player) (n : ℕ) (h : 1/10 ≤ p.fireRate) :
    1/10 ≤ (Player.upgradeFireRate^[n] p).fireRate ∧
    p.upgradeFireRate.fireRate =
      (if p.fireRate - 1/10 < 1/10 then 1/10 else p.fireRate - 1/10) := by
  refine ⟨?_, rfl⟩
  induction n generalizing p with
  | zero => simpa using h
  | succ m ih =>
    rw [Function.iterate_succ_apply]
    exact ih _ (upgradeFireRate_ge_floor p)

theorem fireRate_floor_witness :
    (1/10 : ℚ) ≤ Player.init.fireRate ∧
    (1/10 ≤ (Player.upgradeFireRate^[7] Player.init).fireRate ∧
     Player.init.upgradeFireRate.fireRate =
       (if Player.init.fireRate - 1/10 < 1/10 then 1/10
        else Player.init.fireRate - 1/10)) :=
  ⟨by norm_num [Player.init], fireRate_floor Player.init 7 (by norm_num [Player.init])⟩

/-! ### C7 — the frame time is not clamped -/

/-- C7 (failing input): the loop body passes the platform's frame time to
`UpdateGame` without any clamping, so a frame with `dt = −1` is not
equivalent to one with `dt = 0`: from the fresh game, the boss spawn timer
moves backwards to −1 where a zero-dt frame leaves it at 0. -/
theorem negative_dt_not_clamped :
    (runFrame initialGame (-1) noInput zeroRng).1.bossSpawnTimer = -1 ∧
    (runFrame initialGame 0 noInput zeroRng).1.bossSpawnTimer = 0 ∧
    (runFrame initialGame (-1) noInput zeroRng).1.enemySpawnTimer = -1 ∧
    (runFrame initialGame (-1) noInput zeroRng).1 ≠
      (runFrame initialGame 0 noInput zeroRng).1 := by
  refine ⟨by decide, by decide, by decide, ?_⟩
  intro hcontra
  have h1 := congrArg Game.bossSpawnTimer hcontra
  revert h1
  decide

/-! ### C10 — the boss-drop flag cannot influence the spawned upgrade -/

/-- C10: `SpawnUpgrade` never reads `isBossDrop`: for the same generator
state and position, the boss-drop call and the ordinary call append the
identical upgrade — type drawn uniformly from the three upgrade types by a
draw in [0, 2], at the given position, timer 5, active — and leave the
generator in the same state. -/
theorem spawnUpgrade_flag_independent (ups : List Upgrade) (pos : Vec2) (g : Rng) :
    spawnUpgrade ups pos true g = spawnUpgrade ups pos false g ∧
    (spawnUpgrade ups pos true g).1 =
      ups ++ [{ type := if (getRandomValue 0 2 g).1 = 0 then .HEALTH
                        else if (getRandomValue 0 2 g).1 = 1 then .FIRE_RATE
                        else .ATTACK_RANGE,
                pos := pos, fallSpeed := 100, timer := 5, active := true }] ∧
    0 ≤ (getRandomValue 0 2 g).1 ∧ (getRandomValue 0 2 g).1 ≤ 2 := by
  refine ⟨rfl, rfl, ?_, ?_⟩
  · exact (getRandomValue_bounds 0 2 (by norm_num) g).1
  · exact (getRandomValue_bounds 0 2 (by norm_num) g).2

/-! ### C5 — the drop chance is 20/101, not exactly 20% -/

/-- C5 (counterexample): the reaping drop test spawns an upgrade exactly when
the uniform draw from the 101 equally likely values 0..100 is < 20, and 20
out of 101 outcomes is not exactly 20% of the range. -/
theorem dropChance_not_twenty_percent :
    ¬ (((Finset.Icc (0 : ℤ) 100).filter (fun r => dropRollHits r = true)).card * 100 =
        20 * (Finset.Icc (0 : ℤ) 100).card) := by
  decide

/-- C5 (amended): reaping a dead non-boss enemy spawns an upgrade exactly
when the draw of `GetRandomValue(0, 100)` passes the `< 20` test; the draw
ranges over the 101 equally likely values 0..100, each attainable, of which
exactly 20 pass — a drop probability of 20/101 (≈ 19.8%), not exactly 20%. -/
theorem dropChance_twenty_of_101 (e : Enemy) (sc bd : Int) (ba : Bool)
    (ups : List Upgrade) (ns : List Note) (g : Rng)
    (hdead : e.health ≤ 0) (hnb : e.type ≠ .BOSS) :
    ((reapEnemies [e] sc bd ba ups ns g).upgrades.length = ups.length + 1 ↔
      dropRollHits (getRandomValue 0 100 g).1 = true) ∧
    ((reapEnemies [e] sc bd ba ups ns g).upgrades.length = ups.length ↔
      ¬ dropRollHits (getRandomValue 0 100 g).1 = true) ∧
    0 ≤ (getRandomValue 0 100 g).1 ∧ (getRandomValue 0 100 g).1 ≤ 100 ∧
    (∀ r : Int, 0 ≤ r → r ≤ 100 → ∃ g' : Rng, (getRandomValue 0 100 g').1 = r) ∧
    ((Finset.Icc (0 : ℤ) 100).filter (fun r => dropRollHits r = true)).card = 20 ∧
    (Finset.Icc (0 : ℤ) 100).card = 101 := by
  have hspawn : ∀ (u : List Upgrade) (p : Vec2) (fl : Bool) (gg : Rng),
      (spawnUpgrade u p fl gg).1.length = u.length + 1 := by
    intro u p fl gg
    simp [spawnUpgrade]
  refine ⟨?_, ?_, (getRandomValue_bounds 0 100 (by norm_num) g).1,
          (getRandomValue_bounds 0 100 (by norm_num) g).2,
          fun r h1 h2 => getRandomValue_surj 0 100 r h1 h2, by decide, by decide⟩
  · unfold reapEnemies
    simp only [hdead, if_pos, hnb, if_neg, if_false]
    by_cases hroll : dropRollHits (getRandomValue 0 100 g).1 = true
    · simp [hroll, reapEnemies, hspawn]
    · simp only [Bool.not_eq_true] at hroll
      simp [hroll, reapEnemies]
  · unfold reapEnemies
    simp only [hdead, if_pos, hnb, if_neg, if_false]
    by_cases hroll : dropRollHits (getRandomValue 0 100 g).1 = true
    · simp [hroll, reapEnemies, hspawn]
    · simp only [Bool.not_eq_true] at hroll
      simp [hroll, reapEnemies]

/-! ### C1 — player death ends the frame before any other simulation step -/

lemma player_update_bullets (p : Player) (dt : ℚ) (inp : FrameInput) (bs : List Bullet) :
    (p.update dt inp bs).2.take bs.length = bs := by
  unfold Player.update
  dsimp only
  split
  · simp
  · simp

/-- C1: in PLAYING, if the player is dead right after the player update, the
frame transitions to GAME_OVER and returns: enemies (hence their positions
and shoot timers), upgrades, messages, score, both spawn timers,
`bossesDefeated` and `bossActive` are exactly as before the call, the
generator is not consumed, and the bullet list is exactly the player phase's
output — every pre-existing bullet unchanged, at most the player's own new
bullet appended. -/
theorem death_early_return (w : Game) (dt : ℚ) (inp : FrameInput) (g : Rng)
    (hdead : (playerPhase w dt inp).player.health ≤ 0) :
    (updateGame w dt inp g).1.state = .GAME_OVER ∧
    (updateGame w dt inp g).1.enemies = w.enemies ∧
    (updateGame w dt inp g).1.upgrades = w.upgrades ∧
    (updateGame w dt inp g).1.notes = w.notes ∧
    (updateGame w dt inp g).1.score = w.score ∧
    (updateGame w dt inp g).1.enemySpawnTimer = w.enemySpawnTimer ∧
    (updateGame w dt inp g).1.bossSpawnTimer = w.bossSpawnTimer ∧
    (updateGame w dt inp g).1.bossesDefeated = w.bossesDefeated ∧
    (updateGame w dt inp g).1.bossActive = w.bossActive ∧
    (updateGame w dt inp g).1.bullets = (playerPhase w dt inp).bullets ∧
    (updateGame w dt inp g).1.bullets.take w.bullets.length = w.bullets ∧
    (updateGame w dt inp g).2 = g := by
  have hu : updateGame w dt inp g = ({ playerPhase w dt inp with state := .GAME_OVER }, g) := by
    unfold updateGame
    simp [hdead]
  rw [hu]
  exact ⟨rfl, rfl, rfl, rfl, rfl, rfl, rfl, rfl, rfl, rfl,
         player_update_bullets w.player dt inp w.bullets, rfl⟩

theorem death_early_return_witness :
    (updateGame deadPlayerGame 1 noInput zeroRng).1.state = .GAME_OVER ∧
    (updateGame deadPlayerGame 1 noInput zeroRng).1.enemies = deadPlayerGame.enemies ∧
    (updateGame deadPlayerGame 1 noInput zeroRng).1.upgrades = deadPlayerGame.upgrades ∧
    (updateGame deadPlayerGame 1 noInput zeroRng).1.notes = deadPlayerGame.notes ∧
    (updateGame deadPlayerGame 1 noInput zeroRng).1.score = deadPlayerGame.score ∧
    (updateGame deadPlayerGame 1 noInput zeroRng).1.enemySpawnTimer = deadPlayerGame.enemySpawnTimer ∧
    (updateGame deadPlayerGame 1 noInput zeroRng).1.bossSpawnTimer = deadPlayerGame.bossSpawnTimer ∧
    (updateGame deadPlayerGame 1 noInput zeroRng).1.bossesDefeated = deadPlayerGame.bossesDefeated ∧
    (updateGame deadPlayerGame 1 noInput zeroRng).1.bossActive = deadPlayerGame.bossActive ∧
    (updateGame deadPlayerGame 1 noInput zeroRng).1.bullets =
      (playerPhase deadPlayerGame 1 noInput).bullets ∧
    (updateGame deadPlayerGame 1 noInput zeroRng).1.bullets.take
      deadPlayerGame.bullets.length = deadPlayerGame.bullets ∧
    (updateGame deadPlayerGame 1 noInput zeroRng).2 = zeroRng :=
  death_early_return deadPlayerGame 1 noInput zeroRng (by decide)

/-! ### C3 — a player bullet resolves against the first overlapping enemy -/

lemma damageFirstHit_spec (b : Bullet) :
    ∀ (es : List Enemy) (j : ℕ) (hj : j < es.length),
      checkCollisionCircleRec b.pos 5 (es.get ⟨j, hj⟩).hitbox = true →
      (∀ e ∈ es.take j, checkCollisionCircleRec b.pos 5 e.hitbox = false) →
      damageFirstHit b es =
        (es.set j { es.get ⟨j, hj⟩ with
                    health := (es.get ⟨j, hj⟩).health - b.damage }, true) := by
  intro es
  induction es with
  | nil => intro j hj; exact absurd hj (Nat.not_lt_zero j)
  | cons e rest ih =>
    intro j hj hhit hfirst
    cases j with
    | zero =>
      simp only [List.get] at hhit
      unfold damageFirstHit
      simp [hhit]
    | succ k =>
      have hmiss : checkCollisionCircleRec b.pos 5 e.hitbox = false :=
        hfirst e (by simp)
      have hrec := ih k (by simpa using hj) (by simpa using hhit)
        (fun e' he' => hfirst e' (by simp [he']))
      unfold damageFirstHit
      simp [hmiss, hrec]

/-- C3: in the player-bullets-vs-enemies pass, a player bullet damages
exactly the first enemy in iteration order whose hitbox it overlaps
(circle-vs-rectangle, radius 5), by exactly `bullet.damage`; the enemy list
keeps its length (the enemy is not removed even if now dead) and only the
bullet is removed from the pass's bullet list. -/
theorem bullet_hits_first_overlapping_enemy (b : Bullet) (bs : List Bullet)
    (es : List Enemy) (hpb : b.isPlayerBullet = true) (j : ℕ) (hj : j < es.length)
    (hhit : checkCollisionCircleRec b.pos 5 (es.get ⟨j, hj⟩).hitbox = true)
    (hfirst : ∀ e ∈ es.take j, checkCollisionCircleRec b.pos 5 e.hitbox = false) :
    (damageFirstHit b es).2 = true ∧
    (damageFirstHit b es).1 =
      es.set j { es.get ⟨j, hj⟩ with
                 health := (es.get ⟨j, hj⟩).health - b.damage } ∧
    (damageFirstHit b es).1.length = es.length ∧
    playerBulletsPass (b :: bs) es = playerBulletsPass bs (damageFirstHit b es).1 := by
  have h := damageFirstHit_spec b es j hj hhit hfirst
  refine ⟨by rw [h], by rw [h], by rw [h]; simp, ?_⟩
  conv_lhs => rw [playerBulletsPass]
  rw [h]
  simp [hpb]

theorem bullet_hits_first_overlapping_enemy_witness :
    (damageFirstHit sampleBullet [farEnemy, nearEnemy]).2 = true ∧
    (damageFirstHit sampleBullet [farEnemy, nearEnemy]).1.length =
      [farEnemy, nearEnemy].length ∧
    playerBulletsPass [sampleBullet] [farEnemy, nearEnemy] =
      playerBulletsPass [] (damageFirstHit sampleBullet [farEnemy, nearEnemy]).1 := by
  have h := bullet_hits_first_overlapping_enemy sampleBullet [] [farEnemy, nearEnemy]
    (by decide) 1 (by decide) (by decide) (by decide)
  exact ⟨h.1, h.2.2.1, h.2.2.2⟩

/-! ### C8 — the player never exceeds the health cap -/

lemma player_update_health (p : Player) (dt : ℚ) (inp : FrameInput) (bs : List Bullet) :
    (p.update dt inp bs).1.health = p.health ∧
    (p.update dt inp bs).1.maxHealth = p.maxHealth := by
  unfold Player.update
  dsimp only
  split <;> simp

lemma playerOp_preserves_cap (p : Player) (op : PlayerOp)
    (hinv : p.health ≤ p.maxHealth) (hop : op.nonnegDamage = true) :
    (PlayerOp.apply p op).health ≤ (PlayerOp.apply p op).maxHealth := by
  cases op with
  | reset => simp [PlayerOp.apply, Player.reset]
  | increaseMaxHealth =>
    simp only [PlayerOp.apply, Player.increaseMaxHealth]
    omega
  | upgradeFireRate => simpa [PlayerOp.apply, Player.upgradeFireRate] using hinv
  | upgradeAttackRange => simpa [PlayerOp.apply, Player.upgradeAttackRange] using hinv
  | takeDamage a =>
    simp only [PlayerOp.nonnegDamage, decide_eq_true_eq] at hop
    simp only [PlayerOp.apply, Player.takeDamage]
    omega
  | update dt inp =>
    have h := player_update_health p dt inp []
    simp only [PlayerOp.apply]
    rw [h.1, h.2]
    exact hinv

/-- C8: `health ≤ maxHealth` holds in every state reachable from the
constructed player (health = maxHealth = 3) by the operations the game
performs — `Reset`, `IncreaseMaxHealth`, stat upgrades, `TakeDamage` with
nonnegative amount, and the per-frame update — and a HEALTH pickup at full
health leaves the player exactly at the raised maximum. -/
theorem player_health_le_max (ops : List PlayerOp)
    (h : ∀ op ∈ ops, op.nonnegDamage = true) :
    (ops.foldl PlayerOp.apply Player.init).health ≤
      (ops.foldl PlayerOp.apply Player.init).maxHealth ∧
    Player.init.health = 3 ∧ Player.init.maxHealth = 3 ∧
    (∀ p : Player, p.health = p.maxHealth →
       p.increaseMaxHealth.health = p.increaseMaxHealth.maxHealth) := by
  refine ⟨?_, rfl, rfl, ?_⟩
  · have gen : ∀ (l : List PlayerOp) (p : Player), p.health ≤ p.maxHealth →
        (∀ op ∈ l, op.nonnegDamage = true) →
        (l.foldl PlayerOp.apply p).health ≤ (l.foldl PlayerOp.apply p).maxHealth := by
      intro l
      induction l with
      | nil => intro p hp _; simpa using hp
      | cons o t ih =>
        intro p hp hl
        simp only [List.foldl_cons]
        exact ih (PlayerOp.apply p o)
          (playerOp_preserves_cap p o hp (hl o (by simp)))
          (fun op hop => hl op (by simp [hop]))
    exact gen ops Player.init (by norm_num [Player.init]) h
  · intro p hp
    simp [Player.increaseMaxHealth, hp]

theorem player_health_le_max_witness :
    (([.increaseMaxHealth, .takeDamage 2, .update 1 noInput,
       .reset] : List PlayerOp).foldl PlayerOp.apply Player.init).health ≤
      (([.increaseMaxHealth, .takeDamage 2, .update 1 noInput,
         .reset] : List PlayerOp).foldl PlayerOp.apply Player.init).maxHealth ∧
    Player.init.health = 3 ∧ Player.init.maxHealth = 3 ∧
    (∀ p : Player, p.health = p.maxHealth →
       p.increaseMaxHealth.health = p.increaseMaxHealth.maxHealth) :=
  player_health_le_max [.increaseMaxHealth, .takeDamage 2, .update 1 noInput, .reset]
    (by intro op hop
        simp only [List.mem_cons, List.mem_singleton] at hop
        rcases hop with rfl | rfl | rfl | rfl | h
        · rfl
        · decide
        · rfl
        · rfl
        · cases h)

theorem dropChance_twenty_of_101_witness :
    ((reapEnemies [sampleDeadSimple] 0 0 false [] [] zeroRng).upgrades.length = 0 + 1 ↔
      dropRollHits (getRandomValue 0 100 zeroRng).1 = true) ∧
    ((reapEnemies [sampleDeadSimple] 0 0 false [] [] zeroRng).upgrades.length = 0 ↔
      ¬ dropRollHits (getRandomValue 0 100 zeroRng).1 = true) ∧
    0 ≤ (getRandomValue 0 100 zeroRng).1 ∧ (getRandomValue 0 100 zeroRng).1 ≤ 100 ∧
    (∀ r : Int, 0 ≤ r → r ≤ 100 → ∃ g' : Rng, (getRandomValue 0 100 g').1 = r) ∧
    ((Finset.Icc (0 : ℤ) 100).filter (fun r => dropRollHits r = true)).card = 20 ∧
    (Finset.Icc (0 : ℤ) 100).card = 101 := by
  have h := dropChance_twenty_of_101 sampleDeadSimple 0 0 false [] [] zeroRng
    (by decide) (by decide)
  simpa using h

end SpaceInvader
